import Mathlib

/-!
Shallow embedding of the DREAS security-governance core (Rust) and proofs
about its specified behaviour.

Conventions of the embedding:
* Rust `String` values whose only role is identity (key ids, party names,
  messages) are Lean `String`s; prompt/response texts, whose length is
  inspected, are `List Char` (one element per length unit).
* Byte slices (`Vec<u8>`, `&[u8]`) are `List Nat` with every element `< 256`.
* `chrono::DateTime<Utc>` instants are `Int`; the ambient clock
  (`Utc::now()` / `SystemTime::now()`) is passed in as an explicit `now`
  argument.  The timeline for the audit ledger is measured in days, so that
  `chrono::Duration::days(d)` is the integer `d`.
* `uuid::Uuid` values are `Nat` parameters supplied by the caller
  (`Uuid::new_v4()` becomes an explicit argument).
* Fallible Rust functions returning `DreasResult<T>` become
  `Except DreasError T`; methods on `&mut self` / `&self` become explicit
  state passing, returning the post-state together with the result.
* `tracing` log statements have no observable effect on the values a caller
  receives and are dropped; the *audit record* side effects the spec talks
  about are reproduced as explicit trace data where a claim needs them.
-/

namespace Dreas

/-- `src/error.rs`: the `DreasError` enum.  Payloads carried via `#[from]`
(`Serialization`, `Io`) are modelled as their display strings. -/
inductive DreasError where
  | KmsEncryption (msg : String)
  | KmsDecryption (msg : String)
  | Storage (msg : String)
  | Authentication (msg : String)
  | Configuration (msg : String)
  | AgentCoordination (msg : String)
  | AuditLogging (msg : String)
  | Serialization (msg : String)
  | Io (msg : String)
  | Generic (msg : String)
  deriving Repr, DecidableEq

/-- `DreasResult<T>` from `src/error.rs`. -/
abbrev DreasResult (α : Type) := Except DreasError α

instance {ε α : Type} [DecidableEq ε] [DecidableEq α] : DecidableEq (Except ε α)
  | .error e, .error f =>
    if h : e = f then .isTrue (by rw [h]) else .isFalse (fun hc => h (by injection hc))
  | .error _, .ok _ => .isFalse (fun hc => by injection hc)
  | .ok _, .error _ => .isFalse (fun hc => by injection hc)
  | .ok a, .ok b =>
    if h : a = b then .isTrue (by rw [h]) else .isFalse (fun hc => h (by injection hc))

/-! ## Base64 (the `base64` crate's `encode`/`decode`, standard alphabet
with `=` padding), as called by `KmsClient::encrypt`/`decrypt`. -/

/-- Sextet value (0–63) to ASCII code of the standard base64 alphabet. -/
def b64Char (n : Nat) : Nat :=
  if n < 26 then 65 + n
  else if n < 52 then 97 + (n - 26)
  else if n < 62 then 48 + (n - 52)
  else if n = 62 then 43
  else 47

/-- ASCII code back to a sextet value; `none` for characters outside the
standard alphabet (including the padding character `=`, code 61). -/
def b64Val (c : Nat) : Option Nat :=
  if 65 ≤ c ∧ c ≤ 90 then some (c - 65)
  else if 97 ≤ c ∧ c ≤ 122 then some (c - 97 + 26)
  else if 48 ≤ c ∧ c ≤ 57 then some (c - 48 + 52)
  else if c = 43 then some 62
  else if c = 47 then some 63
  else none

/-- `base64::encode`: bytes to the ASCII codes of the padded standard-alphabet
encoding (three input bytes per output quad, `=` = code 61 as padding). -/
def base64Encode : List Nat → List Nat
  | b1 :: b2 :: b3 :: rest =>
    b64Char (b1 / 4) :: b64Char (b1 % 4 * 16 + b2 / 16) ::
      b64Char (b2 % 16 * 4 + b3 / 64) :: b64Char (b3 % 64) :: base64Encode rest
  | [b1, b2] => [b64Char (b1 / 4), b64Char (b1 % 4 * 16 + b2 / 16), b64Char (b2 % 16 * 4), 61]
  | [b1] => [b64Char (b1 / 4), b64Char (b1 % 4 * 16), 61, 61]
  | [] => []

/-- `base64::decode`: ASCII codes to bytes. Accepts full quads, a padded
final quad, or an unpadded final chunk of 2–3 characters; rejects characters
outside the alphabet, padding not at the end, leftover lengths and set
trailing bits, as the crate's strict standard configuration does. -/
def base64Decode : List Nat → Option (List Nat)
  | [] => some []
  | [c1, c2] =>
    match b64Val c1, b64Val c2 with
    | some v1, some v2 =>
      if v2 % 16 = 0 then some [v1 * 4 + v2 / 16] else none
    | _, _ => none
  | [c1, c2, c3] =>
    match b64Val c1, b64Val c2, b64Val c3 with
    | some v1, some v2, some v3 =>
      if v3 % 4 = 0 then some [v1 * 4 + v2 / 16, v2 % 16 * 16 + v3 / 4] else none
    | _, _, _ => none
  | c1 :: c2 :: c3 :: c4 :: rest =>
    match b64Val c1, b64Val c2 with
    | some v1, some v2 =>
      if c3 = 61 then
        if c4 = 61 ∧ rest = [] then
          if v2 % 16 = 0 then some [v1 * 4 + v2 / 16] else none
        else none
      else
        match b64Val c3 with
        | some v3 =>
          if c4 = 61 then
            if rest = [] then
              if v3 % 4 = 0 then some [v1 * 4 + v2 / 16, v2 % 16 * 16 + v3 / 4] else none
            else none
          else
            match b64Val c4 with
            | some v4 =>
              (base64Decode rest).map
                (fun t => (v1 * 4 + v2 / 16) :: (v2 % 16 * 16 + v3 / 4) :: (v3 % 4 * 64 + v4) :: t)
            | none => none
        | none => none
    | _, _ => none
  | _ => none

/-! ## UTF-8 validation (`String::from_utf8`), as called by
`KmsClient::decrypt`.  Decodes a byte list to the list of scalar values,
rejecting truncated sequences, overlong forms and surrogates. -/

def utf8Decode : List Nat → Option (List Nat)
  | [] => some []
  | b1 :: rest =>
    if b1 < 128 then (utf8Decode rest).map (b1 :: ·)
    else
      match rest with
      | b2 :: rest2 =>
        if 194 ≤ b1 ∧ b1 ≤ 223 ∧ 128 ≤ b2 ∧ b2 ≤ 191 then
          (utf8Decode rest2).map (((b1 - 192) * 64 + (b2 - 128)) :: ·)
        else
          match rest2 with
          | b3 :: rest3 =>
            if 224 ≤ b1 ∧ b1 ≤ 239 ∧ 128 ≤ b2 ∧ b2 ≤ 191 ∧ 128 ≤ b3 ∧ b3 ≤ 191
                ∧ (b1 = 224 → 160 ≤ b2) ∧ (b1 = 237 → b2 ≤ 159) then
              (utf8Decode rest3).map (((b1 - 224) * 4096 + (b2 - 128) * 64 + (b3 - 128)) :: ·)
            else
              match rest3 with
              | b4 :: rest4 =>
                if 240 ≤ b1 ∧ b1 ≤ 244 ∧ 128 ≤ b2 ∧ b2 ≤ 191 ∧ 128 ≤ b3 ∧ b3 ≤ 191
                    ∧ 128 ≤ b4 ∧ b4 ≤ 191 ∧ (b1 = 240 → 144 ≤ b2) ∧ (b1 = 244 → b2 ≤ 143) then
                  (utf8Decode rest4).map
                    (((b1 - 240) * 262144 + (b2 - 128) * 4096 + (b3 - 128) * 64 + (b4 - 128)) :: ·)
                else none
              | [] => none
          | [] => none
      | [] => none

/-! ## `src/security/kms.rs` -/

/-- `KmsClient` (the `client_data` map is built empty and never read). -/
structure KmsClient where
  project_id : String
  location : String
  key_ring : String
  key_name : String
  key_version : String
  client_data : List (String × String)
  deriving Repr, DecidableEq

/-- `EncryptionResult`. -/
structure EncryptionResult where
  ciphertext : List Nat
  key_id : String
  algorithm : String
  timestamp : Int
  deriving Repr, DecidableEq

/-- `DecryptionResult`. -/
structure DecryptionResult where
  plaintext : List Nat
  key_id : String
  timestamp : Int
  deriving Repr, DecidableEq

/-- `KmsClient::get_key_id`. -/
def KmsClient.get_key_id (c : KmsClient) : String :=
  "projects/" ++ c.project_id ++ "/locations/" ++ c.location ++ "/keyRings/" ++ c.key_ring
    ++ "/cryptoKeys/" ++ c.key_name ++ "/cryptoKeyVersions/" ++ c.key_version

/-- `KmsClient::encrypt`: base64-encodes the plaintext (the encoded string's
UTF-8 bytes are exactly the ASCII codes `base64Encode` produces). -/
def KmsClient.encrypt (c : KmsClient) (plaintext : List Nat) (now : Int) :
    DreasResult EncryptionResult :=
  .ok { ciphertext := base64Encode plaintext
        key_id := c.get_key_id
        algorithm := "GOOGLE_SYMMETRIC_ENCRYPTION"
        timestamp := now }

/-- `KmsClient::decrypt`: re-reads the ciphertext bytes as a UTF-8 string
(`String::from_utf8`), then base64-decodes it; each failure is mapped to
`DreasError::KmsDecryption` (the formatted cause string is elided). -/
def KmsClient.decrypt (c : KmsClient) (ciphertext : List Nat) (now : Int) :
    DreasResult DecryptionResult :=
  match utf8Decode ciphertext with
  | none => .error (.KmsDecryption ("Invalid ciphertext"))
  | some s =>
    match base64Decode s with
    | none => .error (.KmsDecryption ("Failed to decode ciphertext"))
    | some p => .ok { plaintext := p, key_id := c.get_key_id, timestamp := now }

/-- `KmsClient::validate_config`. -/
def KmsClient.validate_config (c : KmsClient) : DreasResult Unit :=
  if c.project_id.isEmpty then .error (.Configuration ("Project ID cannot be empty"))
  else if c.location.isEmpty then .error (.Configuration ("Location cannot be empty"))
  else if c.key_ring.isEmpty then .error (.Configuration ("Key ring cannot be empty"))
  else if c.key_name.isEmpty then .error (.Configuration ("Key name cannot be empty"))
  else if c.key_version.isEmpty then .error (.Configuration ("Key version cannot be empty"))
  else .ok ()

/-- A byte list is a valid ciphertext for `KmsClient::decrypt`'s scheme when
it is valid UTF-8 whose characters base64-decode. -/
def validCiphertext (bs : List Nat) : Bool :=
  match utf8Decode bs with
  | none => false
  | some s => (base64Decode s).isSome

/-! ## `src/security/escrow.rs` -/

/-- `EscrowEntry`. -/
structure EscrowEntry where
  key_id : String
  encrypted_key : List Nat
  created_at : Int
  expires_at : Option Int
  metadata : List (String × String)
  deriving Repr, DecidableEq

/-- `EscrowSignature`. -/
structure EscrowSignature where
  signer : String
  signature : String
  timestamp : Int
  deriving Repr, DecidableEq

/-- `RecoveryRequest`. -/
structure RecoveryRequest where
  request_id : Nat
  requester : String
  key_id : String
  reason : String
  signatures : List EscrowSignature
  timestamp : Int
  deriving Repr, DecidableEq

/-- `KeyEscrow`.  The `HashMap<String, EscrowEntry>` store is an association
list looked up by key id. -/
structure KeyEscrow where
  escrow_id : Nat
  authorized_parties : List String
  minimum_signatures : Nat
  escrow_data : List (String × EscrowEntry)
  deriving Repr, DecidableEq

/-- `HashMap::get` on the escrow store. -/
def KeyEscrow.getEntry (esc : KeyEscrow) (k : String) : Option EscrowEntry :=
  (esc.escrow_data.find? (fun p => p.1 == k)).map (·.2)

/-- `KeyEscrow::new` (the fresh `Uuid` is the explicit `eid`). -/
def KeyEscrow.new (eid : Nat) (authorized_parties : List String)
    (minimum_signatures : Nat) : DreasResult KeyEscrow :=
  if authorized_parties.length < minimum_signatures then
    .error (.Generic ("Minimum signatures cannot exceed number of authorized parties"))
  else
    .ok { escrow_id := eid, authorized_parties, minimum_signatures, escrow_data := [] }

/-- `KeyEscrow::escrow_key` (`HashMap::insert` replaces any entry under the
same key id). -/
def KeyEscrow.escrow_key (esc : KeyEscrow) (key_id : String) (encrypted_key : List Nat)
    (expires_at : Option Int) (now : Int) : KeyEscrow × DreasResult Unit :=
  let entry : EscrowEntry :=
    { key_id, encrypted_key, created_at := now, expires_at, metadata := [] }
  ({ esc with escrow_data :=
      (key_id, entry) :: esc.escrow_data.filter (fun p => ¬(p.1 == key_id)) },
    .ok ())

/-- `KeyEscrow::validate_recovery_request`. -/
def KeyEscrow.validate_recovery_request (req : RecoveryRequest) : DreasResult Unit :=
  if req.key_id.isEmpty then .error (.Generic ("Key ID cannot be empty"))
  else if req.reason.isEmpty then .error (.Generic ("Recovery reason cannot be empty"))
  else if req.requester.isEmpty then .error (.Generic ("Requester cannot be empty"))
  else .ok ()

/-- The first signature whose signer is not in `authorized_parties`, in
request order — the signer the `validate_signatures` loop rejects on. -/
def KeyEscrow.findUnauthorized (esc : KeyEscrow) : List EscrowSignature → Option EscrowSignature
  | [] => none
  | s :: rest =>
    if esc.authorized_parties.contains s.signer then esc.findUnauthorized rest else some s

/-- `KeyEscrow::validate_signatures`: threshold check, then the loop over
signatures rejecting the first unauthorized signer. -/
def KeyEscrow.validate_signatures (esc : KeyEscrow) (req : RecoveryRequest) :
    DreasResult Unit :=
  if req.signatures.length < esc.minimum_signatures then
    .error (.Authentication ("Insufficient signatures. Required: "
      ++ toString esc.minimum_signatures ++ ", Provided: " ++ toString req.signatures.length))
  else
    match esc.findUnauthorized req.signatures with
    | some s => .error (.Authentication ("Unauthorized signer: " ++ s.signer))
    | none => .ok ()

/-- Whether the entry's optional expiry has passed at `now`
(`chrono::Utc::now() > expires_at` in `recover_key`). -/
def EscrowEntry.expiredAt (entry : EscrowEntry) (now : Int) : Bool :=
  match entry.expires_at with
  | some exp => decide (exp < now)
  | none => false

/-- `KeyEscrow::recover_key`.  Takes `&self`; the returned escrow is the
state after the call.  `audit_recovery` only emits a log line and returns
`Ok`, so it contributes nothing observable here. -/
def KeyEscrow.recover_key (esc : KeyEscrow) (req : RecoveryRequest) (now : Int) :
    KeyEscrow × DreasResult (List Nat) :=
  match KeyEscrow.validate_recovery_request req with
  | .error e => (esc, .error e)
  | .ok _ =>
    match esc.getEntry req.key_id with
    | none => (esc, .error (.Generic ("Key " ++ req.key_id ++ " not found in escrow")))
    | some entry =>
      if entry.expiredAt now then
        (esc, .error (.Generic ("Escrowed key has expired")))
      else
        match esc.validate_signatures req with
        | .error e => (esc, .error e)
        | .ok _ => (esc, .ok entry.encrypted_key)

/-! ## `src/agents/shared/mod.rs`, `prompt_agent.rs`, `response_agent.rs` -/

/-- `AgentContext`. -/
structure AgentContext where
  session_id : Nat
  user_id : Option String
  metadata : List (String × String)
  encryption_key_id : String
  deriving Repr, DecidableEq

/-- `PromptAgent`. -/
structure PromptAgent where
  id : Nat
  context : AgentContext
  encryption_enabled : Bool
  deriving Repr, DecidableEq

/-- `ResponseAgent`. -/
structure ResponseAgent where
  id : Nat
  context : AgentContext
  encryption_enabled : Bool
  deriving Repr, DecidableEq

/-- The `"ENCRYPTED:"` tag the placeholder agent crypto uses. -/
def encTag : List Char := "ENCRYPTED:".toList

/-- Observable side effects of one `process_prompt` call: how many encrypt
operations were performed and which audit records were written. -/
structure PromptTrace where
  encrypt_calls : Nat
  audit_entries : List String
  deriving Repr, DecidableEq

/-- Observable side effects of one `process_response` call. -/
structure ResponseTrace where
  decrypt_calls : Nat
  audit_entries : List String
  deriving Repr, DecidableEq

/-- `PromptAgent::validate_prompt`. -/
def PromptAgent.validate_prompt (_a : PromptAgent) (prompt : List Char) : DreasResult Unit :=
  if prompt.isEmpty then .error (.AgentCoordination ("Prompt cannot be empty"))
  else if prompt.length > 10000 then .error (.AgentCoordination ("Prompt too long"))
  else .ok ()

/-- `PromptAgent::encrypt_prompt` (placeholder: tags the prompt and takes its
bytes; always succeeds). -/
def PromptAgent.encrypt_prompt (_a : PromptAgent) (prompt : List Char) :
    DreasResult (List Nat) :=
  .ok ((encTag ++ prompt).map Char.toNat)

/-- `PromptAgent::process_prompt`: validate, then encrypt when enabled, then
write the `prompt_processed` audit record (`audit_prompt_processing` always
returns `Ok`), then return the processed representation. -/
def PromptAgent.process_prompt (a : PromptAgent) (prompt : List Char) :
    DreasResult (List Char) × PromptTrace :=
  match a.validate_prompt prompt with
  | .error e => (.error e, ⟨0, []⟩)
  | .ok _ =>
    if a.encryption_enabled then
      match a.encrypt_prompt prompt with
      | .error e => (.error e, ⟨1, []⟩)
      | .ok _ => (.ok ("Processed prompt: ".toList ++ prompt), ⟨1, ["prompt_processed"]⟩)
    else
      (.ok ("Processed prompt: ".toList ++ prompt), ⟨0, ["prompt_processed"]⟩)

/-- `ResponseAgent::validate_response`. -/
def ResponseAgent.validate_response (_a : ResponseAgent) (response : List Char) :
    DreasResult Unit :=
  if response.isEmpty then .error (.AgentCoordination ("Response cannot be empty"))
  else if response.length > 50000 then .error (.AgentCoordination ("Response too long"))
  else .ok ()

/-- `ResponseAgent::decrypt_response` (placeholder: strips the
`"ENCRYPTED:"` tag, failing on any other shape). -/
def ResponseAgent.decrypt_response (_a : ResponseAgent) (response : List Char) :
    DreasResult (List Char) :=
  if encTag.isPrefixOf response then .ok (response.drop encTag.length)
  else .error (.AgentCoordination ("Invalid encrypted response format"))

/-- `ResponseAgent::process_response`: decrypt first when enabled, then
validate the decrypted content, then write the `response_processed` audit
record, then return the processed representation. -/
def ResponseAgent.process_response (a : ResponseAgent) (response : List Char) :
    DreasResult (List Char) × ResponseTrace :=
  if a.encryption_enabled then
    match a.decrypt_response response with
    | .error e => (.error e, ⟨1, []⟩)
    | .ok d =>
      match a.validate_response d with
      | .error e => (.error e, ⟨1, []⟩)
      | .ok _ => (.ok ("Processed response: ".toList ++ d), ⟨1, ["response_processed"]⟩)
  else
    match a.validate_response response with
    | .error e => (.error e, ⟨0, []⟩)
    | .ok _ =>
      (.ok ("Processed response: ".toList ++ response), ⟨0, ["response_processed"]⟩)

/-- The decryption stage of `process_response` in isolation: what the
pipeline feeds to validation. -/
def ResponseAgent.decryptStage (a : ResponseAgent) (response : List Char) :
    DreasResult (List Char) :=
  if a.encryption_enabled then a.decrypt_response response else .ok response

/-! ## `src/security/audit.rs` -/

/-- `AuditResult`. -/
inductive AuditResult where
  | Success
  | Failure
  | Partial
  deriving Repr, DecidableEq

/-- `AuditEntry`. -/
structure AuditEntry where
  entry_id : Nat
  timestamp : Int
  user_id : Option String
  session_id : Option String
  action : String
  resource : String
  result : AuditResult
  ip_address : Option String
  user_agent : Option String
  metadata : List (String × String)
  deriving Repr, DecidableEq

/-- `AuditQuery`. -/
structure AuditQuery where
  start_date : Option Int
  end_date : Option Int
  user_id : Option String
  action : Option String
  resource : Option String
  result : Option AuditResult
  limit : Option Nat
  deriving Repr, DecidableEq

/-- `AuditLogger`. -/
structure AuditLogger where
  log_id : Nat
  retention_days : Nat
  audit_entries : List AuditEntry
  sensitive_operations : List String
  deriving Repr, DecidableEq

/-- `AuditLogger::query_audit_entries`: the six `retain` filters in source
order, then the newest-first stable sort
(`sort_by(|a, b| b.timestamp.cmp(&a.timestamp))`), then `truncate(limit)`. -/
def AuditLogger.query_audit_entries (lg : AuditLogger) (q : AuditQuery) :
    DreasResult (List AuditEntry) :=
  let r0 : List AuditEntry := lg.audit_entries
  let r1 : List AuditEntry := match q.start_date with
    | some s => r0.filter (fun e => decide (s ≤ e.timestamp))
    | none => r0
  let r2 : List AuditEntry := match q.end_date with
    | some en => r1.filter (fun e => decide (e.timestamp ≤ en))
    | none => r1
  let r3 : List AuditEntry := match q.user_id with
    | some u => r2.filter (fun e => e.user_id == some u)
    | none => r2
  let r4 : List AuditEntry := match q.action with
    | some a => r3.filter (fun e => e.action == a)
    | none => r3
  let r5 : List AuditEntry := match q.resource with
    | some rs => r4.filter (fun e => e.resource == rs)
    | none => r4
  let r6 : List AuditEntry := match q.result with
    | some res => r5.filter (fun e => e.result == res)
    | none => r5
  let sorted : List AuditEntry := r6.mergeSort (fun a b => decide (b.timestamp ≤ a.timestamp))
  let limited : List AuditEntry := match q.limit with
    | some k => sorted.take k
    | none => sorted
  .ok limited

/-- `AuditLogger::cleanup_old_entries`: drop every entry at or before
`now − retention_days` (`retain(timestamp > cutoff)`), returning how many
were removed. -/
def AuditLogger.cleanup_old_entries (lg : AuditLogger) (now : Int) :
    AuditLogger × DreasResult Nat :=
  let cutoff : Int := now - (lg.retention_days : Int)
  let kept := lg.audit_entries.filter (fun e => decide (cutoff < e.timestamp))
  ({ lg with audit_entries := kept }, .ok (lg.audit_entries.length - kept.length))

/-- One conjunct of the audit query filter: holds vacuously when the
optional criterion is absent. -/
def optHolds {β : Type} (o : Option β) (p : β → Bool) : Bool :=
  match o with
  | some v => p v
  | none => true

/-- The conjunction (AND) of the six `AuditQuery` filter predicates. -/
def matchesQuery (q : AuditQuery) (e : AuditEntry) : Bool :=
  optHolds q.start_date (fun s => decide (s ≤ e.timestamp)) &&
  optHolds q.end_date (fun en => decide (e.timestamp ≤ en)) &&
  optHolds q.user_id (fun u => e.user_id == some u) &&
  optHolds q.action (fun a => e.action == a) &&
  optHolds q.resource (fun rs => e.resource == rs) &&
  optHolds q.result (fun res => e.result == res)

/-- `Vec::truncate(limit)` when the optional limit is present. -/
def applyLimit {α : Type} (o : Option Nat) (l : List α) : List α :=
  match o with
  | some k => l.take k
  | none => l

/-- The entries matching a query, sorted newest-first — what
`query_audit_entries` returns before the limit is applied. -/
def sortedMatches (lg : AuditLogger) (q : AuditQuery) : List AuditEntry :=
  (lg.audit_entries.filter (fun e => matchesQuery q e)).mergeSort
    (fun a b => decide (b.timestamp ≤ a.timestamp))

/-! ## Concrete fixtures used by witnesses and counterexamples -/

/-- A correctly configured client for witnesses. -/
def kmsW : KmsClient :=
  { project_id := "p", location := "l", key_ring := "r", key_name := "k",
    key_version := "1", client_data := [] }

/-- The escrow used by the escrow witnesses: parties A, B, C with
threshold 2, holding `key-1` (no expiry) and `key-2` (expires at time 10). -/
def escW : KeyEscrow :=
  { escrow_id := 0
    authorized_parties := ["A", "B", "C"]
    minimum_signatures := 2
    escrow_data :=
      [("key-1", { key_id := "key-1", encrypted_key := [1, 2, 3], created_at := 0,
                   expires_at := none, metadata := [] }),
       ("key-2", { key_id := "key-2", encrypted_key := [4, 5, 6], created_at := 0,
                   expires_at := some 10, metadata := [] })] }

/-- The `key-1` entry of `escW`. -/
def entryW1 : EscrowEntry :=
  { key_id := "key-1", encrypted_key := [1, 2, 3], created_at := 0,
    expires_at := none, metadata := [] }

/-- The `key-2` entry of `escW`. -/
def entryW2 : EscrowEntry :=
  { key_id := "key-2", encrypted_key := [4, 5, 6], created_at := 0,
    expires_at := some 10, metadata := [] }

/-- A recovery request for `key-1` signed by A and B. -/
def reqW1 : RecoveryRequest :=
  { request_id := 1, requester := "ops", key_id := "key-1", reason := "disaster recovery",
    signatures := [{ signer := "A", signature := "sigA", timestamp := 0 },
                   { signer := "B", signature := "sigB", timestamp := 0 }],
    timestamp := 0 }

/-- A recovery request for the expired `key-2`, validly signed by A and B. -/
def reqW2 : RecoveryRequest :=
  { request_id := 2, requester := "ops", key_id := "key-2", reason := "disaster recovery",
    signatures := [{ signer := "A", signature := "sigA", timestamp := 0 },
                   { signer := "B", signature := "sigB", timestamp := 0 }],
    timestamp := 0 }

/-- A recovery request for the expired `key-2` with no signatures at all. -/
def reqW2n : RecoveryRequest :=
  { request_id := 3, requester := "ops", key_id := "key-2", reason := "disaster recovery",
    signatures := [], timestamp := 0 }

/-- The prompt agent used by the prompt-pipeline witnesses. -/
def agentP : PromptAgent :=
  { id := 0
    context := { session_id := 0, user_id := none, metadata := [], encryption_key_id := "kid" }
    encryption_enabled := true }

/-- The response agent used by the response-pipeline witnesses. -/
def agentR : ResponseAgent :=
  { id := 1
    context := { session_id := 0, user_id := none, metadata := [], encryption_key_id := "kid" }
    encryption_enabled := true }

/-! ## Codec lemmas -/

theorem b64Val_b64Char : ∀ n, n < 64 → b64Val (b64Char n) = some n := by decide

theorem b64Char_ne_61 : ∀ n, n < 64 → b64Char n ≠ 61 := by decide

theorem b64Char_lt_128 (n : Nat) : b64Char n < 128 := by
  unfold b64Char; split_ifs <;> omega

theorem base64Encode_lt_128 : ∀ (x : List Nat), ∀ c ∈ base64Encode x, c < 128
  | [] => by simp [base64Encode]
  | [b1] => by
    intro c hc
    simp only [base64Encode, List.mem_cons, List.not_mem_nil, or_false] at hc
    rcases hc with rfl | rfl | rfl | rfl <;> first | exact b64Char_lt_128 _ | omega
  | [b1, b2] => by
    intro c hc
    simp only [base64Encode, List.mem_cons, List.not_mem_nil, or_false] at hc
    rcases hc with rfl | rfl | rfl | rfl <;> first | exact b64Char_lt_128 _ | omega
  | b1 :: b2 :: b3 :: rest => by
    intro c hc
    simp only [base64Encode, List.mem_cons] at hc
    rcases hc with rfl | rfl | rfl | rfl | h
    · exact b64Char_lt_128 _
    · exact b64Char_lt_128 _
    · exact b64Char_lt_128 _
    · exact b64Char_lt_128 _
    · exact base64Encode_lt_128 rest c h

theorem base64_roundtrip : ∀ (x : List Nat), (∀ b ∈ x, b < 256) →
    base64Decode (base64Encode x) = some x
  | [], _ => rfl
  | [b1], h => by
    have h1 : b1 < 256 := h b1 (by simp)
    have e1 := b64Val_b64Char (b1 / 4) (by omega)
    have e2 := b64Val_b64Char (b1 % 4 * 16) (by omega)
    have hv : b1 % 4 * 16 % 16 = 0 := by omega
    simp [base64Encode, base64Decode, e1, e2, hv]
    omega
  | [b1, b2], h => by
    have h1 : b1 < 256 := h b1 (by simp)
    have h2 : b2 < 256 := h b2 (by simp)
    have e1 := b64Val_b64Char (b1 / 4) (by omega)
    have e2 := b64Val_b64Char (b1 % 4 * 16 + b2 / 16) (by omega)
    have e3 := b64Val_b64Char (b2 % 16 * 4) (by omega)
    have hne3 : ¬(b64Char (b2 % 16 * 4) = 61) := b64Char_ne_61 _ (by omega)
    have hv : b2 % 16 * 4 % 4 = 0 := by omega
    have hc1 : b1 / 4 * 4 + (b1 % 4 * 16 + b2 / 16) / 16 = b1 := by omega
    simp [base64Encode, base64Decode, e1, e2, e3, hne3, hv, hc1]
    omega
  | b1 :: b2 :: b3 :: rest, h => by
    have h1 : b1 < 256 := h b1 (by simp)
    have h2 : b2 < 256 := h b2 (by simp)
    have h3 : b3 < 256 := h b3 (by simp)
    have ih := base64_roundtrip rest (fun b hb => h b (by simp [hb]))
    have e1 := b64Val_b64Char (b1 / 4) (by omega)
    have e2 := b64Val_b64Char (b1 % 4 * 16 + b2 / 16) (by omega)
    have e3 := b64Val_b64Char (b2 % 16 * 4 + b3 / 64) (by omega)
    have e4 := b64Val_b64Char (b3 % 64) (by omega)
    have hne3 : ¬(b64Char (b2 % 16 * 4 + b3 / 64) = 61) := b64Char_ne_61 _ (by omega)
    have hne4 : ¬(b64Char (b3 % 64) = 61) := b64Char_ne_61 _ (by omega)
    have hc1 : b1 / 4 * 4 + (b1 % 4 * 16 + b2 / 16) / 16 = b1 := by omega
    have hc2 : (b1 % 4 * 16 + b2 / 16) % 16 * 16 + (b2 % 16 * 4 + b3 / 64) / 4 = b2 := by
      omega
    have hc3 : (b2 % 16 * 4 + b3 / 64) % 4 * 64 + b3 % 64 = b3 := by omega
    simp [base64Encode, base64Decode, e1, e2, e3, e4, hne3, hne4, ih, hc1, hc2, hc3]

theorem utf8Decode_ascii : ∀ (l : List Nat), (∀ b ∈ l, b < 128) → utf8Decode l = some l
  | [], _ => rfl
  | b :: bs, h => by
    have hb : b < 128 := h b (by simp)
    have ih := utf8Decode_ascii bs (fun x hx => h x (by simp [hx]))
    rw [utf8Decode.eq_def]
    simp [hb, ih]

/-- C3: for every byte sequence `x`, decrypting the ciphertext produced by
encrypting `x` with a correctly configured `KmsClient` yields exactly `x`. -/
theorem kms_encrypt_decrypt_roundtrip (c : KmsClient) (x : List Nat) (n₁ n₂ : Int)
    (hx : ∀ b ∈ x, b < 256) (_hc : c.validate_config = .ok ()) :
    ∃ er, c.encrypt x n₁ = .ok er ∧
      ∃ dr, c.decrypt er.ciphertext n₂ = .ok dr ∧ dr.plaintext = x := by
  refine ⟨{ ciphertext := base64Encode x, key_id := c.get_key_id,
            algorithm := "GOOGLE_SYMMETRIC_ENCRYPTION", timestamp := n₁ }, rfl, ?_⟩
  have h1 : utf8Decode (base64Encode x) = some (base64Encode x) :=
    utf8Decode_ascii _ (base64Encode_lt_128 x)
  have h2 : base64Decode (base64Encode x) = some x := base64_roundtrip x hx
  exact ⟨{ plaintext := x, key_id := c.get_key_id, timestamp := n₂ },
    by simp [KmsClient.decrypt, h1, h2], rfl⟩

/-- Witness for C3 at a concrete client and plaintext. -/
theorem kms_encrypt_decrypt_roundtrip_witness :
    (∀ b ∈ [0, 255, 17, 3], b < 256) ∧ kmsW.validate_config = .ok () ∧
      ∃ er, kmsW.encrypt [0, 255, 17, 3] 0 = .ok er ∧
        ∃ dr, kmsW.decrypt er.ciphertext 1 = .ok dr ∧ dr.plaintext = [0, 255, 17, 3] :=
  ⟨by decide, by decide,
    kms_encrypt_decrypt_roundtrip kmsW [0, 255, 17, 3] 0 1 (by decide) (by decide)⟩

/-- C6: on any byte sequence that is not a valid UTF-8 base64 encoding,
`KmsClient::decrypt` fails with a `KmsDecryption` error. -/
theorem kms_decrypt_invalid (c : KmsClient) (bs : List Nat) (now : Int)
    (h : validCiphertext bs = false) :
    ∃ msg, c.decrypt bs now = .error (.KmsDecryption msg) := by
  unfold validCiphertext at h
  cases hu : utf8Decode bs with
  | none => exact ⟨"Invalid ciphertext", by simp [KmsClient.decrypt, hu]⟩
  | some s =>
    rw [hu] at h
    simp only [] at h
    cases hb : base64Decode s with
    | none => exact ⟨"Failed to decode ciphertext", by simp [KmsClient.decrypt, hu, hb]⟩
    | some p => rw [hb] at h; simp at h

/-- Witness for C6: a one-byte ciphertext (a lone `!`) is valid UTF-8 but
not base64, so decryption reports a `KmsDecryption` error. -/
theorem kms_decrypt_invalid_witness :
    validCiphertext [33] = false ∧
      ∃ msg, kmsW.decrypt [33] 0 = .error (.KmsDecryption msg) :=
  ⟨by decide, kms_decrypt_invalid kmsW [33] 0 (by decide)⟩

/-! ## Escrow lemmas and claims -/

theorem findUnauthorized_eq_none_iff (esc : KeyEscrow) (sigs : List EscrowSignature) :
    esc.findUnauthorized sigs = none ↔ ∀ s ∈ sigs, s.signer ∈ esc.authorized_parties := by
  induction sigs with
  | nil => simp [KeyEscrow.findUnauthorized]
  | cons s rest ih =>
    by_cases hs : esc.authorized_parties.contains s.signer
    · have hs' : s.signer ∈ esc.authorized_parties := List.elem_iff.1 hs
      simp [KeyEscrow.findUnauthorized, hs, ih, hs']
    · have hs' : s.signer ∉ esc.authorized_parties := fun hmem => hs (List.elem_iff.2 hmem)
      simp [KeyEscrow.findUnauthorized, hs, hs']

theorem validate_signatures_ok_iff (esc : KeyEscrow) (req : RecoveryRequest) :
    esc.validate_signatures req = .ok () ↔
      (esc.minimum_signatures ≤ req.signatures.length ∧
        ∀ s ∈ req.signatures, s.signer ∈ esc.authorized_parties) := by
  unfold KeyEscrow.validate_signatures
  by_cases hlen : req.signatures.length < esc.minimum_signatures
  · rw [if_pos hlen]
    constructor
    · intro h; cases h
    · rintro ⟨hge, -⟩; exact absurd hlen (by omega)
  · rw [if_neg hlen]
    cases hf : esc.findUnauthorized req.signatures with
    | none =>
      have hall := (findUnauthorized_eq_none_iff esc req.signatures).1 hf
      exact iff_of_true rfl ⟨Nat.le_of_not_lt hlen, hall⟩
    | some s =>
      have hne : ¬(∀ t ∈ req.signatures, t.signer ∈ esc.authorized_parties) := by
        intro hall
        rw [(findUnauthorized_eq_none_iff esc req.signatures).2 hall] at hf
        cases hf
      constructor
      · intro h; cases h
      · rintro ⟨-, h2⟩; exact absurd h2 hne

theorem validate_recovery_request_ok (req : RecoveryRequest)
    (h1 : req.requester.isEmpty = false) (h2 : req.key_id.isEmpty = false)
    (h3 : req.reason.isEmpty = false) :
    KeyEscrow.validate_recovery_request req = .ok () := by
  simp [KeyEscrow.validate_recovery_request, h1, h2, h3]

theorem expiredAt_false_iff (entry : EscrowEntry) (now : Int) :
    entry.expiredAt now = false ↔
      (entry.expires_at = none ∨ ∃ exp, entry.expires_at = some exp ∧ now ≤ exp) := by
  cases hx : entry.expires_at with
  | none => simp [EscrowEntry.expiredAt, hx]
  | some exp =>
    simp [EscrowEntry.expiredAt, hx]

/-- C1: with non-empty request fields and an entry stored under the
request's key id, `recover_key` returns the stored encrypted key bytes iff
the signature count meets the threshold, every signer is authorized, and the
entry is unexpired; if any of the three conditions fails, it returns an
error. -/
theorem recover_key_grant_iff (esc : KeyEscrow) (req : RecoveryRequest) (now : Int)
    (entry : EscrowEntry)
    (h1 : req.requester.isEmpty = false) (h2 : req.key_id.isEmpty = false)
    (h3 : req.reason.isEmpty = false)
    (hent : esc.getEntry req.key_id = some entry) :
    ((esc.recover_key req now).2 = .ok entry.encrypted_key ↔
      (esc.minimum_signatures ≤ req.signatures.length ∧
        (∀ s ∈ req.signatures, s.signer ∈ esc.authorized_parties) ∧
        (entry.expires_at = none ∨ ∃ exp, entry.expires_at = some exp ∧ now ≤ exp))) ∧
    (¬(esc.minimum_signatures ≤ req.signatures.length ∧
        (∀ s ∈ req.signatures, s.signer ∈ esc.authorized_parties) ∧
        (entry.expires_at = none ∨ ∃ exp, entry.expires_at = some exp ∧ now ≤ exp)) →
      ∃ e, (esc.recover_key req now).2 = .error e) := by
  have hval := validate_recovery_request_ok req h1 h2 h3
  unfold KeyEscrow.recover_key
  rw [hval, hent]
  by_cases hexp : entry.expiredAt now = true
  · have hexp' : ¬(entry.expires_at = none ∨ ∃ exp, entry.expires_at = some exp ∧ now ≤ exp) := by
      rw [← expiredAt_false_iff]
      simp [hexp]
    constructor
    · simp only [hexp, if_true]
      constructor
      · intro h; cases h
      · rintro ⟨-, -, h⟩; exact absurd h hexp'
    · intro _
      simp [hexp]
  · have hexpf : entry.expiredAt now = false := by simpa using hexp
    have hexp' := (expiredAt_false_iff entry now).1 hexpf
    simp only [hexpf, Bool.false_eq_true, if_false]
    cases hsig : esc.validate_signatures req with
    | ok u =>
      cases u
      have := (validate_signatures_ok_iff esc req).1 hsig
      constructor
      · exact iff_of_true rfl ⟨this.1, this.2, hexp'⟩
      · rintro hneg
        exact absurd ⟨this.1, this.2, hexp'⟩ hneg
    | error e =>
      have hne : ¬(esc.minimum_signatures ≤ req.signatures.length ∧
          ∀ s ∈ req.signatures, s.signer ∈ esc.authorized_parties) := by
        intro hc
        rw [(validate_signatures_ok_iff esc req).2 hc] at hsig
        cases hsig
      constructor
      · constructor
        · intro h; cases h
        · rintro ⟨hc1, hc2, -⟩; exact absurd ⟨hc1, hc2⟩ hne
      · intro _; exact ⟨e, rfl⟩

/-- Witness for C1: the two-signature request against `key-1` is granted. -/
theorem recover_key_grant_iff_witness :
    reqW1.requester.isEmpty = false ∧ escW.getEntry reqW1.key_id = some entryW1 ∧
      (escW.recover_key reqW1 5).2 = .ok entryW1.encrypted_key :=
  ⟨by decide, by decide,
    ((recover_key_grant_iff escW reqW1 5 entryW1 (by decide) (by decide) (by decide)
      (by decide)).1).2 ⟨by decide, by decide, Or.inl (by decide)⟩⟩

/-- C2 (amended): when the target entry's `expires_at` has passed,
`recover_key` reports the expiry error — carried by the `Generic` error
constructor — and it does so whatever the signature set looks like, because
the expiry check runs before signature validation. -/
theorem recover_key_expired_error (esc : KeyEscrow) (req : RecoveryRequest) (now : Int)
    (entry : EscrowEntry) (exp : Int)
    (h1 : req.requester.isEmpty = false) (h2 : req.key_id.isEmpty = false)
    (h3 : req.reason.isEmpty = false)
    (hent : esc.getEntry req.key_id = some entry)
    (hexp : entry.expires_at = some exp) (hlt : exp < now) :
    (esc.recover_key req now).2 = .error (.Generic ("Escrowed key has expired")) := by
  have hval := validate_recovery_request_ok req h1 h2 h3
  have hex : entry.expiredAt now = true := by
    simp [EscrowEntry.expiredAt, hexp, hlt]
  unfold KeyEscrow.recover_key
  rw [hval, hent]
  simp [hex]

/-- Counterexample to C2 as stated: at time 11 the expired `key-2` is
rejected with the expiry message under the `Generic` error constructor, and
the result is not an `Authentication`-family error for any message — the
code has no `Expired` sub-kind of `Authentication`. -/
theorem recover_key_expired_kind_cex :
    (escW.recover_key reqW2 11).2 = .error (.Generic ("Escrowed key has expired")) ∧
      ∀ msg, (escW.recover_key reqW2 11).2 ≠ .error (.Authentication msg) := by
  have h : (escW.recover_key reqW2 11).2 = .error (.Generic ("Escrowed key has expired")) := by
    decide
  refine ⟨h, fun msg hc => ?_⟩
  rw [h] at hc
  simp at hc

/-- Witness for the amended C2: even a request with no signatures at all
(simultaneously insufficient and trivially authorized-vacuous) gets the
expiry error, showing the expiry check precedes signature validation. -/
theorem recover_key_expired_error_witness :
    escW.getEntry reqW2n.key_id = some entryW2 ∧ entryW2.expires_at = some 10 ∧
      (escW.recover_key reqW2n 11).2 = .error (.Generic ("Escrowed key has expired")) :=
  ⟨by decide, by decide,
    recover_key_expired_error escW reqW2n 11 entryW2 10 (by decide) (by decide)
      (by decide) (by decide) (by decide) (by decide)⟩

/-- C9 (amended): `KeyEscrow::new` fails — with the `Generic` error
constructor — exactly when the threshold exceeds the number of authorized
parties, and otherwise builds an escrow with an empty store. -/
theorem escrow_new_spec (eid : Nat) (parties : List String) (m : Nat) :
    (parties.length < m →
      KeyEscrow.new eid parties m =
        .error (.Generic ("Minimum signatures cannot exceed number of authorized parties"))) ∧
    (m ≤ parties.length →
      KeyEscrow.new eid parties m =
        .ok { escrow_id := eid, authorized_parties := parties,
              minimum_signatures := m, escrow_data := [] }) := by
  constructor
  · intro h
    simp [KeyEscrow.new, h]
  · intro h
    rw [KeyEscrow.new, if_neg (by omega)]

/-- Counterexample to C9 as stated: a threshold of 2 with a single party is
rejected under the `Generic` error constructor, not the `Configuration`
error kind the spec names. -/
theorem escrow_new_kind_cex :
    KeyEscrow.new 0 ["A"] 2 =
        .error (.Generic ("Minimum signatures cannot exceed number of authorized parties")) ∧
      ∀ msg, KeyEscrow.new 0 ["A"] 2 ≠ .error (.Configuration msg) := by
  have h : KeyEscrow.new 0 ["A"] 2 =
      .error (.Generic ("Minimum signatures cannot exceed number of authorized parties")) := by
    decide
  refine ⟨h, fun msg hc => ?_⟩
  rw [h] at hc
  simp at hc

/-- Witness for the amended C9: a satisfiable threshold constructs an escrow
with an empty store. -/
theorem escrow_new_spec_witness :
    2 ≤ (["A", "B"] : List String).length ∧
      KeyEscrow.new 7 ["A", "B"] 2 =
        .ok { escrow_id := 7, authorized_parties := ["A", "B"],
              minimum_signatures := 2, escrow_data := [] } :=
  ⟨by decide, (escrow_new_spec 7 ["A", "B"] 2).2 (by decide)⟩

/-- `recover_key` hands back the escrow unchanged on every path. -/
theorem recover_key_fst (esc : KeyEscrow) (req : RecoveryRequest) (now : Int) :
    (esc.recover_key req now).1 = esc := by
  unfold KeyEscrow.recover_key
  split
  · rfl
  · split
    · rfl
    · split
      · rfl
      · split <;> rfl

/-- C10: `recover_key` never mutates the escrow — whether the call succeeds
or fails, the returned state is the input escrow — and a granted recovery
can be repeated against that unchanged state: if the request was granted at
`now` and the entry is still unexpired at `now₂`, the same request is
granted again with the same bytes. -/
theorem recover_key_no_mutation (esc : KeyEscrow) (req : RecoveryRequest) (now : Int) :
    (esc.recover_key req now).1 = esc ∧
    (∀ now₂ (b : List Nat), (esc.recover_key req now).2 = .ok b →
      ((esc.getEntry req.key_id).all (fun e => !(e.expiredAt now₂))) = true →
      (esc.recover_key req now₂).1 = esc ∧ (esc.recover_key req now₂).2 = .ok b) := by
  refine ⟨recover_key_fst esc req now,
    fun now₂ b hgrant hunexp => ⟨recover_key_fst esc req now₂, ?_⟩⟩
  unfold KeyEscrow.recover_key at hgrant ⊢
  cases hval : KeyEscrow.validate_recovery_request req with
  | error e => rw [hval] at hgrant; simp at hgrant
  | ok u =>
    cases u
    rw [hval] at hgrant
    cases hent : esc.getEntry req.key_id with
    | none => rw [hent] at hgrant; simp at hgrant
    | some entry =>
      rw [hent] at hgrant hunexp
      simp only [Option.all_some, Bool.not_eq_eq_eq_not, Bool.not_true] at hunexp
      by_cases hexp1 : entry.expiredAt now = true
      · simp [hexp1] at hgrant
      · simp only [Bool.not_eq_true] at hexp1
        simp only [hexp1, Bool.false_eq_true, if_false] at hgrant
        simp only [hunexp, Bool.false_eq_true, if_false]
        cases hsig : esc.validate_signatures req with
        | error e => rw [hsig] at hgrant; simp at hgrant
        | ok u2 =>
          rw [hsig] at hgrant
          exact hgrant

/-- Witness for C10: a failing recovery (no signatures, at time 5 against
`key-2` which has not yet expired, so the threshold check rejects) leaves
the escrow unchanged, and the granted recovery of `key-1` at time 5 repeats
at time 6 with the same bytes against the unchanged escrow. -/
theorem recover_key_no_mutation_witness :
    (escW.recover_key reqW2n 5).1 = escW ∧
      (escW.recover_key reqW1 5).1 = escW ∧
        (escW.recover_key reqW1 5).2 = .ok [1, 2, 3] ∧
          (escW.recover_key reqW1 6).1 = escW ∧
            (escW.recover_key reqW1 6).2 = .ok [1, 2, 3] :=
  ⟨(recover_key_no_mutation escW reqW2n 5).1,
    (recover_key_no_mutation escW reqW1 5).1,
    by decide,
    ((recover_key_no_mutation escW reqW1 5).2 6 [1, 2, 3] (by decide) (by decide)).1,
    ((recover_key_no_mutation escW reqW1 5).2 6 [1, 2, 3] (by decide) (by decide)).2⟩

/-! ## Agent pipeline lemmas and claims -/

theorem process_prompt_empty (a : PromptAgent) :
    a.process_prompt [] = (.error (.AgentCoordination ("Prompt cannot be empty")), ⟨0, []⟩) :=
  rfl

theorem process_prompt_long (a : PromptAgent) (p : List Char)
    (he : p ≠ []) (hl : 10000 < p.length) :
    a.process_prompt p = (.error (.AgentCoordination ("Prompt too long")), ⟨0, []⟩) := by
  have hie : p.isEmpty = false := by
    cases p with
    | nil => exact absurd rfl he
    | cons x xs => rfl
  simp [PromptAgent.process_prompt, PromptAgent.validate_prompt, hie, hl]

theorem process_prompt_ok (a : PromptAgent) (p : List Char)
    (he : p ≠ []) (hl : ¬ 10000 < p.length) :
    a.process_prompt p =
      (.ok ("Processed prompt: ".toList ++ p),
        ⟨if a.encryption_enabled then 1 else 0, ["prompt_processed"]⟩) := by
  have hie : p.isEmpty = false := by
    cases p with
    | nil => exact absurd rfl he
    | cons x xs => rfl
  cases henc : a.encryption_enabled <;>
    simp [PromptAgent.process_prompt, PromptAgent.validate_prompt,
      PromptAgent.encrypt_prompt, hie, hl, henc]

/-- C4 (amended): `process_prompt` rejects with a validation error exactly
when the prompt is empty or its length exceeds 10,000 units; on rejection no
encrypt operation is spent and no audit record is written; the empty prompt
in particular is rejected. -/
theorem process_prompt_validation (a : PromptAgent) (prompt : List Char) :
    (((a.process_prompt prompt).1 = .error (.AgentCoordination ("Prompt cannot be empty")) ∨
      (a.process_prompt prompt).1 = .error (.AgentCoordination ("Prompt too long"))) ↔
      (prompt = [] ∨ 10000 < prompt.length)) ∧
    ((prompt = [] ∨ 10000 < prompt.length) →
      (a.process_prompt prompt).2 = ⟨0, []⟩) ∧
    (a.process_prompt []).1 = .error (.AgentCoordination ("Prompt cannot be empty")) := by
  refine ⟨?_, ?_, by rw [process_prompt_empty]⟩
  · by_cases he : prompt = []
    · subst he
      rw [process_prompt_empty]
      exact iff_of_true (Or.inl rfl) (Or.inl rfl)
    · by_cases hl : 10000 < prompt.length
      · rw [process_prompt_long a prompt he hl]
        exact iff_of_true (Or.inr rfl) (Or.inr hl)
      · rw [process_prompt_ok a prompt he hl]
        refine iff_of_false ?_ ?_
        · rintro (h | h) <;> cases h
        · rintro (h | h)
          · exact he h
          · exact hl h
  · rintro (he | hl)
    · subst he; rw [process_prompt_empty]
    · by_cases he : prompt = []
      · subst he; rw [process_prompt_empty]
      · rw [process_prompt_long a prompt he hl]

/-- Counterexample to C4 as stated: a prompt of length exactly 10,000 —
whose length is *not under* the 10,000-unit maximum — is accepted, not
rejected. -/
theorem process_prompt_boundary_cex :
    (List.replicate 10000 'a').length = 10000 ∧
      (agentP.process_prompt (List.replicate 10000 'a')).1 =
        .ok ("Processed prompt: ".toList ++ List.replicate 10000 'a') := by
  have hlen : (List.replicate 10000 'a').length = 10000 := List.length_replicate 10000 'a'
  have hne : List.replicate 10000 'a' ≠ [] := by
    intro h
    rw [h] at hlen
    simp at hlen
  have hnl : ¬ 10000 < (List.replicate 10000 'a').length := by
    rw [hlen]; omega
  exact ⟨hlen, by rw [process_prompt_ok agentP _ hne hnl]⟩

/-- Witness for the amended C4: the empty prompt is rejected. -/
theorem process_prompt_validation_witness :
    (agentP.process_prompt []).1 = .error (.AgentCoordination ("Prompt cannot be empty")) :=
  (process_prompt_validation agentP []).2.2

theorem validate_response_empty (a : ResponseAgent) :
    a.validate_response [] = .error (.AgentCoordination ("Response cannot be empty")) :=
  rfl

theorem validate_response_long (a : ResponseAgent) (x : List Char)
    (he : x ≠ []) (hl : 50000 < x.length) :
    a.validate_response x = .error (.AgentCoordination ("Response too long")) := by
  have hie : x.isEmpty = false := by
    cases x with
    | nil => exact absurd rfl he
    | cons c cs => rfl
  simp [ResponseAgent.validate_response, hie, hl]

theorem validate_response_ok (a : ResponseAgent) (x : List Char)
    (he : x ≠ []) (hl : ¬ 50000 < x.length) :
    a.validate_response x = .ok () := by
  have hie : x.isEmpty = false := by
    cases x with
    | nil => exact absurd rfl he
    | cons c cs => rfl
  simp [ResponseAgent.validate_response, hie, hl]

theorem process_response_plain_eq (a : ResponseAgent) (r : List Char)
    (henc : a.encryption_enabled = false) :
    a.process_response r =
      (match a.validate_response r with
       | .error e => (.error e, ⟨0, []⟩)
       | .ok _ => (.ok ("Processed response: ".toList ++ r), ⟨0, ["response_processed"]⟩)) := by
  unfold ResponseAgent.process_response
  rw [henc, if_neg (by simp)]

theorem process_response_enc_eq (a : ResponseAgent) (r d : List Char)
    (henc : a.encryption_enabled = true) (hd : a.decrypt_response r = .ok d) :
    a.process_response r =
      (match a.validate_response d with
       | .error e => (.error e, ⟨1, []⟩)
       | .ok _ => (.ok ("Processed response: ".toList ++ d), ⟨1, ["response_processed"]⟩)) := by
  unfold ResponseAgent.process_response
  rw [henc, if_pos rfl]
  split
  · rename_i e heq
    rw [hd] at heq
    cases heq
  · rename_i d' heq
    rw [hd] at heq
    injection heq with h
    subst h
    rfl

/-- C5: `process_response` decrypts first (when enabled) and validates the
decrypted content, rejecting with a validation error exactly when that
content is empty or longer than 50,000 units; a decrypt operation is spent
whenever encryption is enabled, even when validation then rejects — the
reverse of the prompt pipeline's validate-before-encrypt order. -/
theorem process_response_order (a : ResponseAgent) (r d : List Char)
    (hd : a.decryptStage r = .ok d) :
    (((a.process_response r).1 = .error (.AgentCoordination ("Response cannot be empty")) ∨
      (a.process_response r).1 = .error (.AgentCoordination ("Response too long"))) ↔
      (d = [] ∨ 50000 < d.length)) ∧
    (a.encryption_enabled = true → (a.process_response r).2.decrypt_calls = 1) ∧
    ((d ≠ [] ∧ ¬ 50000 < d.length) →
      (a.process_response r).1 = .ok ("Processed response: ".toList ++ d)) := by
  unfold ResponseAgent.decryptStage at hd
  cases henc : a.encryption_enabled with
  | false =>
    rw [henc, if_neg (by simp)] at hd
    injection hd with hrd
    subst hrd
    have heq := process_response_plain_eq a r henc
    refine ⟨?_, ?_, ?_⟩
    · by_cases he : r = []
      · subst he
        exact iff_of_true (Or.inl (by rw [heq, validate_response_empty])) (Or.inl rfl)
      · by_cases hl : 50000 < r.length
        · exact iff_of_true (Or.inr (by rw [heq, validate_response_long a r he hl]))
            (Or.inr hl)
        · refine iff_of_false ?_ ?_
          · rw [heq, validate_response_ok a r he hl]
            rintro (h | h) <;> cases h
          · rintro (h | h)
            · exact he h
            · exact hl h
    · intro hcontr
      exact Bool.noConfusion hcontr
    · rintro ⟨he, hl⟩
      rw [heq, validate_response_ok a r he hl]
  | true =>
    rw [henc, if_pos rfl] at hd
    have heq := process_response_enc_eq a r d henc hd
    refine ⟨?_, ?_, ?_⟩
    · by_cases he : d = []
      · subst he
        exact iff_of_true (Or.inl (by rw [heq, validate_response_empty])) (Or.inl rfl)
      · by_cases hl : 50000 < d.length
        · exact iff_of_true (Or.inr (by rw [heq, validate_response_long a d he hl]))
            (Or.inr hl)
        · refine iff_of_false ?_ ?_
          · rw [heq, validate_response_ok a d he hl]
            rintro (h | h) <;> cases h
          · rintro (h | h)
            · exact he h
            · exact hl h
    · intro _
      rw [heq]
      cases a.validate_response d <;> rfl
    · rintro ⟨he, hl⟩
      rw [heq, validate_response_ok a d he hl]

/-- Witness for C5: `"ENCRYPTED:hi"` decrypts to `"hi"`, which validates,
and the decrypt operation is counted. -/
theorem process_response_order_witness :
    agentR.decryptStage ("ENCRYPTED:hi".toList) = .ok ("hi".toList) ∧
      (agentR.process_response ("ENCRYPTED:hi".toList)).1 =
        .ok ("Processed response: ".toList ++ "hi".toList) ∧
      (agentR.process_response ("ENCRYPTED:hi".toList)).2.decrypt_calls = 1 :=
  ⟨by decide,
    (process_response_order agentR ("ENCRYPTED:hi".toList) ("hi".toList)
      (by decide)).2.2 ⟨by decide, by decide⟩,
    (process_response_order agentR ("ENCRYPTED:hi".toList) ("hi".toList)
      (by decide)).2.1 (by decide)⟩

/-! ## Audit ledger lemmas and claims -/

theorem length_sub_filter {α : Type} (p : α → Bool) (l : List α) :
    l.length - (l.filter p).length = (l.filter (fun x => !p x)).length := by
  induction l with
  | nil => rfl
  | cons x xs ih =>
    have hle := List.length_filter_le p xs
    by_cases hx : p x <;> (simp [hx, List.filter_cons]; omega)

/-- C7: `cleanup_old_entries` keeps exactly the entries strictly newer than
`now − retention_days`: every kept entry is newer than the cutoff, every
newer entry is kept, every entry at or before the cutoff is removed, and the
returned count is the number of entries at or before the cutoff. -/
theorem cleanup_old_entries_spec (lg : AuditLogger) (now : Int) :
    (∀ e ∈ (lg.cleanup_old_entries now).1.audit_entries,
      now - (lg.retention_days : Int) < e.timestamp) ∧
    (∀ e ∈ lg.audit_entries, now - (lg.retention_days : Int) < e.timestamp →
      e ∈ (lg.cleanup_old_entries now).1.audit_entries) ∧
    (∀ e ∈ lg.audit_entries, e.timestamp ≤ now - (lg.retention_days : Int) →
      e ∉ (lg.cleanup_old_entries now).1.audit_entries) ∧
    ((lg.cleanup_old_entries now).2 = .ok ((lg.audit_entries.filter
      (fun e => decide (e.timestamp ≤ now - (lg.retention_days : Int)))).length)) := by
  refine ⟨?_, ?_, ?_, ?_⟩
  · intro e he
    simp only [AuditLogger.cleanup_old_entries, List.mem_filter,
      decide_eq_true_eq] at he
    exact he.2
  · intro e he hgt
    simp only [AuditLogger.cleanup_old_entries, List.mem_filter, decide_eq_true_eq]
    exact ⟨he, hgt⟩
  · intro e _ hle
    simp only [AuditLogger.cleanup_old_entries, List.mem_filter, decide_eq_true_eq]
    rintro ⟨-, hgt⟩
    omega
  · have hpt : ∀ x : AuditEntry,
        (!decide (now - (lg.retention_days : Int) < x.timestamp)) =
          decide (x.timestamp ≤ now - (lg.retention_days : Int)) := by
      intro x
      by_cases h : now - (lg.retention_days : Int) < x.timestamp <;> simp [h] <;> omega
    simp only [AuditLogger.cleanup_old_entries, length_sub_filter, hpt]

theorem filter_filter_right {α : Type} (p q : α → Bool) (l : List α) :
    (l.filter p).filter q = l.filter (fun a => p a && q a) := by
  induction l with
  | nil => rfl
  | cons x xs ih => by_cases hp : p x <;> by_cases hq : q x <;> simp [hp, hq, ih]

theorem pairwise_sortedMatches (lg : AuditLogger) (q : AuditQuery) :
    (sortedMatches lg q).Pairwise (fun a b => b.timestamp ≤ a.timestamp) := by
  have h := @List.sorted_mergeSort AuditEntry
    (fun a b => decide (b.timestamp ≤ a.timestamp))
    (fun a b c hab hbc => by
      simp only [decide_eq_true_eq] at *
      omega)
    (fun a b => by
      simp only [Bool.or_eq_true, decide_eq_true_eq]
      omega)
    (lg.audit_entries.filter (matchesQuery q))
  exact h.imp (fun hab => by simpa using hab)

/-- C8: `query_audit_entries` never errors: it returns exactly the entries
satisfying the conjunction of the supplied filter predicates, sorted
newest-first, with the optional limit truncating after sorting. -/
theorem query_audit_entries_spec (lg : AuditLogger) (q : AuditQuery) :
    (sortedMatches lg q).Perm (lg.audit_entries.filter (matchesQuery q)) ∧
    (sortedMatches lg q).Pairwise (fun a b => b.timestamp ≤ a.timestamp) ∧
    lg.query_audit_entries q = .ok (applyLimit q.limit (sortedMatches lg q)) := by
  refine ⟨List.mergeSort_perm _ _, pairwise_sortedMatches lg q, ?_⟩
  obtain ⟨sd, ed, ui, ac, rs, re, lim⟩ := q
  simp only [AuditLogger.query_audit_entries, sortedMatches, applyLimit, matchesQuery]
  cases sd <;> cases ed <;> cases ui <;> cases ac <;> cases rs <;> cases re <;>
    simp only [optHolds, filter_filter_right, Bool.true_and, Bool.and_true,
      List.filter_true]

end Dreas
